import Mathlib

/-!
# pubgeo `PointCloud` (src/common/PointCloud.cpp)

A shallow embedding of `PointCloud.cpp` and theorems about it.

Conventions of the embedding.

* Coordinates are `double` in the source.  Their finite values are rational
  numbers, and the operations the module applies to them (comparison, minimum,
  maximum, `floor`) are exact on doubles, so coordinates are modelled as `ℚ`.
  NaN and infinities are outside the model.
* `int` is the 32-bit signed integer; the conversion `(int)` of a `double` is
  `toInt` below.
* PDAL (the external engine) is not part of the repository.  A `PointView` is
  modelled as the ordered list of its points plus the UTM zone of its spatial
  reference; executing a pipeline is a parameter `Engine`.
* The build modelled is the one in which the macro `WIN32` is not defined.
* Writes to `std::cerr` are diagnostics only and are not modelled.
-/

namespace pubgeo

/-! ## The external engine: points, views, bounding boxes -/

/-- One point of a PDAL point view: its position and the attributes the
module reads. -/
structure Point where
  x : ℚ
  y : ℚ
  z : ℚ
  intensity : Int
  classification : Int
deriving DecidableEq

/-- A `pdal::PointView` (the target of a non-null `PointViewPtr`): points in
index order and the UTM zone reported by `spatialReference().getUTMZone()`. -/
structure PointView where
  points : List Point
  utmZone : Int
deriving DecidableEq

/-- The member `PointView::size()`. -/
def PointView.size (v : PointView) : Nat := v.points.length

/-- The member `PointView::makeNew()`: an empty view over the same point table
and with the same spatial reference. -/
def PointView.makeNew (v : PointView) : PointView :=
  { points := [], utmZone := v.utmZone }

/-- The member `PointView::appendPoint(src, idx)`: copies point `idx` of `src`
to the end of the receiver. -/
def PointView.appendPoint (out src : PointView) (idx : Nat) : PointView :=
  match src.points[idx]? with
  | some p => { out with points := out.points ++ [p] }
  | none => out

/-- A `pdal::BOX3D`. -/
structure BOX3D where
  minx : ℚ
  maxx : ℚ
  miny : ℚ
  maxy : ℚ
  minz : ℚ
  maxz : ℚ
deriving DecidableEq

/-- The member `BOX3D::grow(x, y, z)`: widens the box to contain the position. -/
def BOX3D.grow (b : BOX3D) (p : Point) : BOX3D :=
  { minx := if p.x < b.minx then p.x else b.minx
    maxx := if p.x > b.maxx then p.x else b.maxx
    miny := if p.y < b.miny then p.y else b.miny
    maxy := if p.y > b.maxy then p.y else b.maxy
    minz := if p.z < b.minz then p.z else b.minz
    maxz := if p.z > b.maxz then p.z else b.maxz }

/-- The box a cleared `BOX3D` becomes after growing to its first point. -/
def BOX3D.ofPoint (p : Point) : BOX3D :=
  { minx := p.x, maxx := p.x, miny := p.y, maxy := p.y, minz := p.z, maxz := p.z }

/-- The call `view->calculateBounds(box)` on a freshly constructed (cleared)
`box`: the box is grown to every point in index order.  On a view without
points the cleared box is left as it is; `Read` returns before it would look
at it, and the embedding gives it zero fields. -/
def PointView.calculateBounds (v : PointView) : BOX3D :=
  match v.points with
  | [] => { minx := 0, maxx := 0, miny := 0, maxy := 0, minz := 0, maxz := 0 }
  | p :: ps => ps.foldl BOX3D.grow (BOX3D.ofPoint p)

/-! ## Machine integers -/

/-- Least value of `int`. -/
def INT_MIN : Int := -2147483648

/-- Greatest value of `int`. -/
def INT_MAX : Int := 2147483647

/-- The conversion `(int) d` of an integral `double` `d`: exact when `d` is
representable as an `int`.  Outside that range C++ leaves the conversion
undefined; the embedding takes what the x86-64 conversion instruction
(`cvttsd2si`) delivers, `INT_MIN`. -/
def toInt (d : Int) : Int :=
  if INT_MIN ≤ d ∧ d ≤ INT_MAX then d else INT_MIN

/-! ## The data model (`PointCloud.h` is not among the sources) -/

/-- Modelled from the spec: the aggregate `MinMaxXYZ` is declared in
`PointCloud.h`; the six bounds are named as in the spec and ordered as the
initialiser in `Read` lists them. -/
structure MinMaxXYZ where
  minX : ℚ
  maxX : ℚ
  minY : ℚ
  maxY : ℚ
  minZ : ℚ
  maxZ : ℚ
deriving DecidableEq

/-- A `pdal::PipelineManager` as far as the module uses it: the views its
last execution produced (none for a fresh manager). -/
structure PipelineManager where
  views : List PointView
deriving DecidableEq

/-- Modelled from the spec: the class `PointCloud` is declared in
`PointCloud.h`; the fields are those of the constructor's initialiser list.
`numPoints` is the spec's non-negative `pointCount`; the three offsets and
the zone are `int`; `executor` and `pv` are nullable handles. -/
structure PointCloud where
  zone : Int
  numPoints : Nat
  xOff : Int
  yOff : Int
  zOff : Int
  executor : Option PipelineManager
  pv : Option PointView
  bounds : MinMaxXYZ
deriving DecidableEq

/-- The constructor `PointCloud::PointCloud()`. -/
def PointCloud.new : PointCloud :=
  { zone := 0, numPoints := 0, xOff := 0, yOff := 0, zOff := 0,
    executor := none, pv := none,
    bounds := { minX := 0, maxX := 0, minY := 0, maxY := 0, minZ := 0, maxZ := 0 } }

/-- The derived metadata of a cloud: bounds, offset, zone and point count. -/
def PointCloud.metadata (pc : PointCloud) : MinMaxXYZ × (Int × Int × Int) × Int × Nat :=
  (pc.bounds, (pc.xOff, pc.yOff, pc.zOff), pc.zone, pc.numPoints)

/-- The member `PointCloud::CleanupPdalPointers()`. -/
def PointCloud.CleanupPdalPointers (pc : PointCloud) : PointCloud :=
  let pc := if pc.pv ≠ none then { pc with pv := none } else pc
  if pc.executor ≠ none then { pc with executor := none } else pc

/-- The overload `bool PointCloud::Read(pdal::PointViewPtr view)` for a
non-null `view`; the result is the returned flag and the state afterwards. -/
def PointCloud.ReadView (pc : PointCloud) (view : PointView) : Bool × PointCloud :=
  let pc := { pc with pv := some view }
  let pc := { pc with numPoints := view.size }
  if pc.numPoints < 1 then (false, pc)
  else
    let box := view.calculateBounds
    let pc := { pc with zone := view.utmZone }
    let pc := { pc with xOff := toInt ⌊box.minx⌋ }
    let pc := { pc with yOff := toInt ⌊box.miny⌋ }
    let pc := { pc with zOff := toInt ⌊box.minz⌋ }
    let pc := { pc with bounds :=
      { minX := box.minx, maxX := box.maxx, minY := box.miny,
        maxY := box.maxy, minZ := box.minz, maxZ := box.maxz } }
    (true, pc)

/-- Modelled from the spec: the accessor `c(i)` is defined in `PointCloud.h`;
it is the classification attribute of point `i` of the held view
(`getFieldAs<int>` of the classification dimension). -/
def c (view : PointView) (i : Nat) : Int :=
  match view.points[i]? with
  | some p => p.classification
  | none => 0

/-- The loop of `CropToClass` from index `idx` on:
`for (; idx < pv->size(); ++idx) if (c(idx)==keep_class) outView->appendPoint(*pv,idx);` -/
def cropLoop (pv : PointView) (keep_class : Int) (idx : Nat) (outView : PointView) :
    PointView :=
  if idx < pv.size then
    cropLoop pv keep_class (idx + 1)
      (if c pv idx = keep_class then outView.appendPoint pv idx else outView)
  else outView
termination_by pv.size - idx

/-- The member `PointCloud PointCloud::CropToClass(int keep_class)`.  With a
null `pv` the first statement dereferences a null handle: no result. -/
def PointCloud.CropToClass (pc : PointCloud) (keep_class : Int) : Option PointCloud :=
  match pc.pv with
  | none => none
  | some pv =>
    let outView := cropLoop pv keep_class 0 pv.makeNew
    let out := PointCloud.new
    some (out.ReadView outView).2

/-! ## Pipeline descriptions -/

/-- Whether the macro `WIN32` is defined in the build.  The embedding is of
the build without it (the spec leaves the path-separator normalisation of the
other build out of scope). -/
def WIN32 : Bool := false

/-- The statement `std::regex_replace(fileName, std::regex("\\\\"), "/")` of
the `WIN32` build: every backslash becomes a slash. -/
def normaliseSeparators (fileName : String) : String :=
  fileName.replace (String.singleton (Char.ofNat 92)) "/"

/-- The static string `PDAL_PIPELINE_OPEN_ENGINE`. -/
def PDAL_PIPELINE_OPEN_ENGINE : String := "\x7b \"pipeline\": [ \""

/-- The static string `PDAL_PIPELINE_OPEN_CABOOSE`. -/
def PDAL_PIPELINE_OPEN_CABOOSE : String := "\"] \x7d "

/-- The function `std::string buildPipelineStr(std::string fileName)`. -/
def buildPipelineStr (fileName : String) : String :=
  let fileName := if WIN32 then normaliseSeparators fileName else fileName
  PDAL_PIPELINE_OPEN_ENGINE ++ fileName ++ PDAL_PIPELINE_OPEN_CABOOSE

/-- The text the local stream `pipeline` of `TransformPointCloud` holds after
the chain of insertions.  A `float` is a rational here; `fmt` is the standard
library's insertion `stream << float` (default formatting), which is not code of
the module. -/
def transformPipeline (fmt : ℚ → String) (inputFileName outputFileName : String)
    (translateX translateY translateZ : ℚ) : String :=
  let inputFileName := if WIN32 then normaliseSeparators inputFileName else inputFileName
  let outputFileName := if WIN32 then normaliseSeparators outputFileName else outputFileName
  "\x7b\n\t\"pipeline\":[\n\t\t\"" ++ inputFileName
    ++ "\",\n\t\t\x7b\n\t\t\t\"type\":\"filters.transformation\",\n"
    ++ "\t\t\t\"matrix\":\""
    ++ "1 0 0 " ++ fmt translateX ++ " "
    ++ "0 1 0 " ++ fmt translateY ++ " "
    ++ "0 0 1 " ++ fmt translateZ ++ " "
    ++ "0 0 0 1\"\n\t\t\x7d,\n\t\t\x7b"
    ++ "\n\t\t\t\"filename\":\"" ++ outputFileName ++ "\"\n\t\t\x7d\n\t]\n\x7d"

/-! ## Executing pipelines -/

/-- The result `executor->views()` of an execution: one or more views, the
first being `*pvs.begin()`. -/
structure PointViewSet where
  first : PointView
  rest : List PointView
deriving DecidableEq

/-- The member `PointViewSet::size()`. -/
def PointViewSet.size (pvs : PointViewSet) : Nat := pvs.rest.length + 1

/-- The external engine: `readPipeline` followed by `execute` on a
description either raises a `pdal::pdal_error` (with its message) or leaves a
view set. -/
abbrev Engine := String → Except String PointViewSet

/-- The overload `bool PointCloud::Read(const char *fileName)`. -/
def PointCloud.Read (engine : Engine) (pc : PointCloud) (fileName : String) :
    Bool × PointCloud :=
  let pc := pc.CleanupPdalPointers
  let pc := { pc with executor := some { views := [] } }
  match engine (buildPipelineStr fileName) with
  | .error _ => (false, pc)
  | .ok pvs =>
    let pc := { pc with executor := some { views := pvs.first :: pvs.rest } }
    pc.ReadView pvs.first

/-- The static member `bool PointCloud::TransformPointCloud(...)`: the manager
is a local of the call, no `PointCloud` is touched. -/
def PointCloud.TransformPointCloud (engine : Engine) (fmt : ℚ → String)
    (inputFileName outputFileName : String) (translateX translateY translateZ : ℚ) : Bool :=
  let pipe := transformPipeline fmt inputFileName outputFileName
    translateX translateY translateZ
  match engine pipe with
  | .error _ => false
  | .ok _ => true

/-! ## A document model of pipeline descriptions

The description format of the spec: a `pipeline` key holding a sequence of
stages, a stage being a bare path string or an object.  `render` writes such
a document as text; the white space between tokens is a `Layout`. -/

/-- A stage of a pipeline description: a bare path string, or an object given
by its members (key and string value) in order. -/
inductive Stage where
  | path (p : String)
  | object (members : List (String × String))
deriving DecidableEq

/-- The white space a writer puts between the tokens of a description. -/
structure Layout where
  afterOpen : String
  afterKey : String
  beforeStage : String
  afterStage : String
  beforeMember : String
  afterMembers : String
  beforeClose : String
  afterClose : String

/-- A layout consists of white space only. -/
def Layout.isBlank (l : Layout) : Bool :=
  [l.afterOpen, l.afterKey, l.beforeStage, l.afterStage, l.beforeMember,
    l.afterMembers, l.beforeClose, l.afterClose].all
    fun s => s.data.all fun ch => ch = ' ' || ch = '\n' || ch = '\t'

/-- The strings of a list separated by `sep`. -/
def joinWith (sep : String) : List String → String
  | [] => ""
  | [s] => s
  | s :: rest => s ++ sep ++ joinWith sep rest

/-- A string token: the characters between double quotes, written as they are. -/
def quoted (s : String) : String := "\"" ++ s ++ "\""

/-- One member of an object. -/
def renderMember (l : Layout) (m : String × String) : String :=
  l.beforeMember ++ quoted m.1 ++ ":" ++ quoted m.2

/-- One stage. -/
def renderStage (l : Layout) : Stage → String
  | .path p => quoted p
  | .object members =>
    "\x7b" ++ joinWith "," (members.map (renderMember l)) ++ l.afterMembers ++ "\x7d"

/-- The document with one key `pipeline` holding the stages. -/
def render (l : Layout) (stages : List Stage) : String :=
  "\x7b" ++ l.afterOpen ++ quoted "pipeline" ++ ":" ++ l.afterKey ++ "["
    ++ l.beforeStage ++ joinWith ("," ++ l.beforeStage) (stages.map (renderStage l))
    ++ l.afterStage ++ "]" ++ l.beforeClose ++ "\x7d" ++ l.afterClose

/-- The layout of the read description (one line). -/
def readLayout : Layout :=
  { afterOpen := " ", afterKey := " ", beforeStage := " ", afterStage := "",
    beforeMember := "", afterMembers := "", beforeClose := " ", afterClose := " " }

/-- The layout of the transform description (tab-indented lines). -/
def transformLayout : Layout :=
  { afterOpen := "\n\t", afterKey := "", beforeStage := "\n\t\t", afterStage := "\n\t",
    beforeMember := "\n\t\t\t", afterMembers := "\n\t\t", beforeClose := "\n",
    afterClose := "" }

/-- A stage that is a bare path string. -/
def Stage.isBarePath : Stage → Bool
  | .path _ => true
  | .object _ => false

/-- The keys of an object stage (none for a bare path). -/
def Stage.keys : Stage → List String
  | .path _ => []
  | .object members => members.map Prod.fst

/-- A stage that is an object carrying a `type` discriminator. -/
def Stage.hasType (s : Stage) : Bool := s.keys.contains "type"

/-- The 16 entries of a row-major 4x4 matrix, separated by single spaces. -/
def matrixText (entries : List String) : String := joinWith " " entries

/-- The stages of the transform description as the spec lists them: read the
input, translate by `(dx, dy, dz)`, write the output. -/
def transformStages (fmt : ℚ → String) (inputPath outputPath : String) (dx dy dz : ℚ) :
    List Stage :=
  [ Stage.path inputPath,
    Stage.object [("type", "filters.transformation"),
      ("matrix", matrixText ["1", "0", "0", fmt dx, "0", "1", "0", fmt dy,
                             "0", "0", "1", fmt dz, "0", "0", "0", "1"])],
    Stage.object [("filename", outputPath)] ]

/-! ## Predicates and folds used by the statements -/

/-- The predicate of the crop: the point carries the label. -/
def hasClass (keep_class : Int) (p : Point) : Bool := decide (p.classification = keep_class)

/-- The running minimum `BOX3D::grow` keeps of one coordinate. -/
def runMin (f : Point → ℚ) (m : ℚ) (ps : List Point) : ℚ :=
  ps.foldl (fun m p => if f p < m then f p else m) m

/-- The running maximum `BOX3D::grow` keeps of one coordinate. -/
def runMax (f : Point → ℚ) (m : ℚ) (ps : List Point) : ℚ :=
  ps.foldl (fun m p => if f p > m then f p else m) m

/-- The box `b` is the bounding box of the points `l`: every point lies in it
and each of its six bounds is the coordinate of some point. -/
def IsBoundingBox (l : List Point) (b : BOX3D) : Prop :=
  (∀ q ∈ l, b.minx ≤ q.x ∧ q.x ≤ b.maxx ∧ b.miny ≤ q.y ∧ q.y ≤ b.maxy ∧
      b.minz ≤ q.z ∧ q.z ≤ b.maxz) ∧
  (∃ q ∈ l, b.minx = q.x) ∧ (∃ q ∈ l, b.maxx = q.x) ∧
  (∃ q ∈ l, b.miny = q.y) ∧ (∃ q ∈ l, b.maxy = q.y) ∧
  (∃ q ∈ l, b.minz = q.z) ∧ (∃ q ∈ l, b.maxz = q.z)

/-! ## Sample inputs -/

/-- A point with the given position and label (intensity 0). -/
def samplePoint (x y z : ℚ) (label : Int) : Point :=
  { x := x, y := y, z := z, intensity := 0, classification := label }

/-- Ten points, three of them (indices 1, 4 and 8) with label 2. -/
def tenPoints : PointView :=
  { points :=
      [samplePoint 0 0 0 1, samplePoint 1 5 2 2, samplePoint 2 1 0 1, samplePoint 3 3 3 5,
       samplePoint 4 2 1 2, samplePoint 5 0 0 1, samplePoint 6 6 6 6, samplePoint 7 1 1 1,
       samplePoint 8 4 9 2, samplePoint 9 9 9 1],
    utmZone := 18 }

/-- A view holding no point. -/
def emptyView : PointView := { points := [], utmZone := 18 }

/-- A single point whose x coordinate, 3000000000, exceeds `INT_MAX`. -/
def farView : PointView := { points := [samplePoint 3000000000 0 0 2], utmZone := 18 }

/-- A point near the origin with label 1 and the far point with label 2. -/
def nearFarView : PointView :=
  { points := [samplePoint 0 0 0 1, samplePoint 3000000000 0 0 2], utmZone := 18 }

/-- Two points with fractional coordinates; the least ones are 3/2, -9/4 and
-1/2. -/
def fracView : PointView :=
  { points := [samplePoint (3/2) (-9/4) (43/4) 2, samplePoint (13/4) (9/2) (-1/2) 2],
    utmZone := 18 }

/-- An engine that raises an error on every description. -/
def failingEngine : Engine := fun _ => Except.error "unable to open"

/-- An engine that executes every description to the single view `tenPoints`. -/
def tenPointsEngine : Engine := fun _ => Except.ok { first := tenPoints, rest := [] }

/-- A sample of the stream insertion of a `float`: integral values print as
integers (as default formatting prints them below a million). -/
def fmtIntegral (q : ℚ) : String := if q.den = 1 then toString q.num else "?"

/-! ## Lemmas: the crop loop -/

theorem cropLoop_eq (pv : PointView) (keep_class : Int) :
    ∀ (n idx : Nat) (outView : PointView), pv.size - idx = n →
      cropLoop pv keep_class idx outView =
        { outView with
          points := outView.points ++ (pv.points.drop idx).filter (hasClass keep_class) } := by
  intro n
  induction n with
  | zero =>
    intro idx outView h
    have hge : pv.points.length ≤ idx := by
      have := h; unfold PointView.size at this; omega
    rw [cropLoop]
    have hlt : ¬ idx < pv.size := by unfold PointView.size; omega
    simp [hlt, List.drop_of_length_le hge]
  | succ n ih =>
    intro idx outView h
    have hlt : idx < pv.points.length := by
      have := h; unfold PointView.size at this; omega
    have hlt2 : idx < pv.size := hlt
    rw [cropLoop, if_pos hlt2, ih (idx + 1) _ (by omega)]
    have hdrop : pv.points.drop idx = pv.points[idx] :: pv.points.drop (idx + 1) :=
      List.drop_eq_getElem_cons hlt
    have hget : pv.points[idx]? = some pv.points[idx] := List.getElem?_eq_getElem hlt
    have hcv : c pv idx = pv.points[idx].classification := by
      unfold c; rw [hget]
    have happ : outView.appendPoint pv idx =
        { outView with points := outView.points ++ [pv.points[idx]] } := by
      unfold PointView.appendPoint; rw [hget]
    rw [hcv, happ, hdrop]
    by_cases hc : pv.points[idx].classification = keep_class
    · have hk : hasClass keep_class pv.points[idx] = true := by simp [hasClass, hc]
      rw [if_pos hc, List.filter_cons_of_pos hk]
      simp
    · have hk : ¬ hasClass keep_class pv.points[idx] = true := by simp [hasClass, hc]
      rw [if_neg hc, List.filter_cons_of_neg hk]

theorem cropLoop_makeNew (pv : PointView) (keep_class : Int) :
    cropLoop pv keep_class 0 pv.makeNew =
      { points := pv.points.filter (hasClass keep_class), utmZone := pv.utmZone } := by
  rw [cropLoop_eq pv keep_class (pv.size - 0) 0 pv.makeNew rfl]
  simp [PointView.makeNew]

/-! ## Lemmas: the conversion to `int` -/

theorem toInt_of_inRange (d : Int) (h : INT_MIN ≤ d ∧ d ≤ INT_MAX) : toInt d = d := by
  unfold toInt; rw [if_pos h]

theorem toInt_inRange (d : Int) : INT_MIN ≤ toInt d ∧ toInt d ≤ INT_MAX := by
  unfold toInt
  split_ifs with h
  · exact h
  · simp [INT_MIN, INT_MAX]

/-! ## Lemmas: the collection-based read -/

theorem ReadView_pv (pc : PointCloud) (view : PointView) :
    (pc.ReadView view).2.pv = some view := by
  unfold PointCloud.ReadView
  by_cases h : view.size < 1 <;> simp [h]

theorem ReadView_numPoints (pc : PointCloud) (view : PointView) :
    (pc.ReadView view).2.numPoints = view.size := by
  unfold PointCloud.ReadView
  by_cases h : view.size < 1 <;> simp [h]

theorem ReadView_success (pc : PointCloud) (view : PointView) :
    (pc.ReadView view).1 = true ↔ 0 < view.size := by
  unfold PointCloud.ReadView
  by_cases h : view.size < 1
  · simp [h]; omega
  · simp [h]; omega

theorem ReadView_of_pos (pc : PointCloud) (view : PointView) (h : 0 < view.size) :
    pc.ReadView view =
      (true,
        { zone := view.utmZone, numPoints := view.size,
          xOff := toInt ⌊view.calculateBounds.minx⌋,
          yOff := toInt ⌊view.calculateBounds.miny⌋,
          zOff := toInt ⌊view.calculateBounds.minz⌋,
          executor := pc.executor, pv := some view,
          bounds :=
            { minX := view.calculateBounds.minx, maxX := view.calculateBounds.maxx,
              minY := view.calculateBounds.miny, maxY := view.calculateBounds.maxy,
              minZ := view.calculateBounds.minz, maxZ := view.calculateBounds.maxz } }) := by
  have hn : ¬ view.size < 1 := by omega
  simp [PointCloud.ReadView, hn]

theorem ReadView_of_empty (pc : PointCloud) (view : PointView) (h : view.size = 0) :
    pc.ReadView view = (false, { pc with pv := some view, numPoints := 0 }) := by
  simp [PointCloud.ReadView, h]

theorem ReadView_metadata_of_pos (s t : PointCloud) (v : PointView) (h : 0 < v.size) :
    (s.ReadView v).2.metadata = (t.ReadView v).2.metadata := by
  rw [ReadView_of_pos s v h, ReadView_of_pos t v h]
  rfl

theorem ReadView_metadata_of_empty (s : PointCloud) (v : PointView) (h : v.size = 0) :
    (s.ReadView v).2.metadata = (s.bounds, (s.xOff, s.yOff, s.zOff), s.zone, 0) := by
  rw [ReadView_of_empty s v h]
  rfl

theorem ReadView_metadata_congr (s t : PointCloud) (v : PointView)
    (h : s.metadata = t.metadata) : (s.ReadView v).2.metadata = (t.ReadView v).2.metadata := by
  rcases Nat.eq_zero_or_pos v.size with h0 | hpos
  · rw [ReadView_metadata_of_empty s v h0, ReadView_metadata_of_empty t v h0]
    simp only [PointCloud.metadata, Prod.mk.injEq] at h
    obtain ⟨hb, ⟨hx, hy, hz⟩, hzone, -⟩ := h
    rw [hb, hx, hy, hz, hzone]
  · exact ReadView_metadata_of_pos s t v hpos

theorem ReadView_metadata_idem (s : PointCloud) (v : PointView) :
    ((s.ReadView v).2.ReadView v).2.metadata = (s.ReadView v).2.metadata := by
  rcases Nat.eq_zero_or_pos v.size with h0 | hpos
  · rw [ReadView_metadata_of_empty _ v h0, ReadView_of_empty s v h0]
    rfl
  · exact ReadView_metadata_of_pos _ s v hpos

theorem CropToClass_eq (pc : PointCloud) (pv : PointView) (keep_class : Int)
    (h : pc.pv = some pv) :
    pc.CropToClass keep_class =
      some (PointCloud.new.ReadView
        { points := pv.points.filter (hasClass keep_class), utmZone := pv.utmZone }).2 := by
  simp [PointCloud.CropToClass, h, cropLoop_makeNew]

/-! ## Lemmas: the path-based read -/

theorem CleanupPdalPointers_eq (pc : PointCloud) :
    pc.CleanupPdalPointers = { pc with pv := none, executor := none } := by
  obtain ⟨zone, numPoints, xOff, yOff, zOff, executor, pv, bounds⟩ := pc
  cases executor <;> cases pv <;> simp [PointCloud.CleanupPdalPointers]

theorem Read_of_error (engine : Engine) (pc : PointCloud) (fileName msg : String)
    (h : engine (buildPipelineStr fileName) = Except.error msg) :
    PointCloud.Read engine pc fileName =
      (false, { pc with pv := none, executor := some { views := [] } }) := by
  simp [PointCloud.Read, h, CleanupPdalPointers_eq]

theorem Read_of_ok (engine : Engine) (pc : PointCloud) (fileName : String)
    (pvs : PointViewSet) (h : engine (buildPipelineStr fileName) = Except.ok pvs) :
    PointCloud.Read engine pc fileName =
      PointCloud.ReadView
        { pc with pv := none, executor := some { views := pvs.first :: pvs.rest } }
        pvs.first := by
  simp [PointCloud.Read, h, CleanupPdalPointers_eq]

theorem Read_is_ReadView_of_success (engine : Engine) (s : PointCloud) (fileName : String)
    (h : (PointCloud.Read engine s fileName).1 = true) :
    ∃ pvs : PointViewSet, engine (buildPipelineStr fileName) = Except.ok pvs ∧
      PointCloud.Read engine s fileName =
        PointCloud.ReadView
          { s with pv := none, executor := some { views := pvs.first :: pvs.rest } }
          pvs.first := by
  cases hres : engine (buildPipelineStr fileName) with
  | error msg => rw [Read_of_error engine s fileName msg hres] at h; simp at h
  | ok pvs => exact ⟨pvs, rfl, Read_of_ok engine s fileName pvs hres⟩

/-! ## Lemmas: bounding boxes -/

theorem runMin_le_init (f : Point → ℚ) (ps : List Point) :
    ∀ m : ℚ, runMin f m ps ≤ m := by
  induction ps with
  | nil => intro m; simp [runMin]
  | cons p ps ih =>
    intro m
    have h := ih (if f p < m then f p else m)
    simp only [runMin, List.foldl_cons] at h ⊢
    refine le_trans h ?_
    split_ifs with hlt
    · exact le_of_lt hlt
    · exact le_refl m

theorem runMin_le_mem (f : Point → ℚ) (ps : List Point) :
    ∀ (m : ℚ) (q : Point), q ∈ ps → runMin f m ps ≤ f q := by
  induction ps with
  | nil => intro m q hq; simp at hq
  | cons p ps ih =>
    intro m q hq
    rcases List.mem_cons.mp hq with rfl | hq
    · have h := runMin_le_init f ps (if f q < m then f q else m)
      simp only [runMin, List.foldl_cons] at h ⊢
      refine le_trans h ?_
      split_ifs with hlt
      · exact le_refl _
      · exact not_lt.mp hlt
    · have h := ih (if f p < m then f p else m) q hq
      simpa only [runMin, List.foldl_cons] using h

theorem runMin_attained (f : Point → ℚ) (ps : List Point) :
    ∀ m : ℚ, runMin f m ps = m ∨ ∃ q ∈ ps, runMin f m ps = f q := by
  induction ps with
  | nil => intro m; left; simp [runMin]
  | cons p ps ih =>
    intro m
    have h := ih (if f p < m then f p else m)
    simp only [runMin, List.foldl_cons] at h ⊢
    rcases h with h | ⟨q, hq, h⟩
    · split_ifs at h ⊢ with hlt
      · right; exact ⟨p, List.mem_cons_self _ _, h⟩
      · left; exact h
    · right; exact ⟨q, List.mem_cons_of_mem _ hq, h⟩

theorem runMax_ge_init (f : Point → ℚ) (ps : List Point) :
    ∀ m : ℚ, m ≤ runMax f m ps := by
  induction ps with
  | nil => intro m; simp [runMax]
  | cons p ps ih =>
    intro m
    have h := ih (if f p > m then f p else m)
    simp only [runMax, List.foldl_cons] at h ⊢
    refine le_trans ?_ h
    split_ifs with hlt
    · exact le_of_lt hlt
    · exact le_refl m

theorem runMax_ge_mem (f : Point → ℚ) (ps : List Point) :
    ∀ (m : ℚ) (q : Point), q ∈ ps → f q ≤ runMax f m ps := by
  induction ps with
  | nil => intro m q hq; simp at hq
  | cons p ps ih =>
    intro m q hq
    rcases List.mem_cons.mp hq with rfl | hq
    · have h := runMax_ge_init f ps (if f q > m then f q else m)
      simp only [runMax, List.foldl_cons] at h ⊢
      refine le_trans ?_ h
      split_ifs with hlt
      · exact le_refl _
      · exact not_lt.mp hlt
    · have h := ih (if f p > m then f p else m) q hq
      simpa only [runMax, List.foldl_cons] using h

theorem runMax_attained (f : Point → ℚ) (ps : List Point) :
    ∀ m : ℚ, runMax f m ps = m ∨ ∃ q ∈ ps, runMax f m ps = f q := by
  induction ps with
  | nil => intro m; left; simp [runMax]
  | cons p ps ih =>
    intro m
    have h := ih (if f p > m then f p else m)
    simp only [runMax, List.foldl_cons] at h ⊢
    rcases h with h | ⟨q, hq, h⟩
    · split_ifs at h ⊢ with hlt
      · right; exact ⟨p, List.mem_cons_self _ _, h⟩
      · left; exact h
    · right; exact ⟨q, List.mem_cons_of_mem _ hq, h⟩

theorem foldl_grow_fields (ps : List Point) :
    ∀ b : BOX3D, ps.foldl BOX3D.grow b =
      { minx := runMin Point.x b.minx ps, maxx := runMax Point.x b.maxx ps,
        miny := runMin Point.y b.miny ps, maxy := runMax Point.y b.maxy ps,
        minz := runMin Point.z b.minz ps, maxz := runMax Point.z b.maxz ps } := by
  induction ps with
  | nil => intro b; simp [runMin, runMax]
  | cons p ps ih =>
    intro b
    rw [List.foldl_cons, ih]
    simp [runMin, runMax, BOX3D.grow]

theorem runMin_cons_le (f : Point → ℚ) (p : Point) (ps : List Point) :
    ∀ q ∈ p :: ps, runMin f (f p) ps ≤ f q := by
  intro q hq
  rcases List.mem_cons.mp hq with rfl | hq
  · exact runMin_le_init f ps _
  · exact runMin_le_mem f ps _ q hq

theorem runMax_cons_ge (f : Point → ℚ) (p : Point) (ps : List Point) :
    ∀ q ∈ p :: ps, f q ≤ runMax f (f p) ps := by
  intro q hq
  rcases List.mem_cons.mp hq with rfl | hq
  · exact runMax_ge_init f ps _
  · exact runMax_ge_mem f ps _ q hq

theorem runMin_cons_attained (f : Point → ℚ) (p : Point) (ps : List Point) :
    ∃ q ∈ p :: ps, runMin f (f p) ps = f q := by
  rcases runMin_attained f ps (f p) with h | ⟨q, hq, h⟩
  · exact ⟨p, List.mem_cons_self _ _, h⟩
  · exact ⟨q, List.mem_cons_of_mem _ hq, h⟩

theorem runMax_cons_attained (f : Point → ℚ) (p : Point) (ps : List Point) :
    ∃ q ∈ p :: ps, runMax f (f p) ps = f q := by
  rcases runMax_attained f ps (f p) with h | ⟨q, hq, h⟩
  · exact ⟨p, List.mem_cons_self _ _, h⟩
  · exact ⟨q, List.mem_cons_of_mem _ hq, h⟩

theorem calculateBounds_isBoundingBox (v : PointView) (h : 0 < v.size) :
    IsBoundingBox v.points v.calculateBounds := by
  obtain ⟨points, utmZone⟩ := v
  cases points with
  | nil => simp [PointView.size] at h
  | cons p ps =>
    simp only [PointView.calculateBounds, foldl_grow_fields, BOX3D.ofPoint]
    refine ⟨fun q hq => ⟨runMin_cons_le _ p ps q hq, runMax_cons_ge _ p ps q hq,
      runMin_cons_le _ p ps q hq, runMax_cons_ge _ p ps q hq,
      runMin_cons_le _ p ps q hq, runMax_cons_ge _ p ps q hq⟩,
      runMin_cons_attained _ p ps, runMax_cons_attained _ p ps,
      runMin_cons_attained _ p ps, runMax_cons_attained _ p ps,
      runMin_cons_attained _ p ps, runMax_cons_attained _ p ps⟩

theorem axis_within (l m : List Point) (f : Point → ℚ) (lo hi lo2 hi2 : ℚ)
    (hsub : ∀ q ∈ m, q ∈ l)
    (hl : ∀ q ∈ l, lo ≤ f q ∧ f q ≤ hi)
    (hm : ∀ q ∈ m, lo2 ≤ f q ∧ f q ≤ hi2)
    (hlo : ∃ q ∈ m, lo2 = f q) (hhi : ∃ q ∈ m, hi2 = f q) :
    lo ≤ lo2 ∧ lo2 ≤ hi2 ∧ hi2 ≤ hi := by
  obtain ⟨a, ha, hae⟩ := hlo
  obtain ⟨b, hb, hbe⟩ := hhi
  refine ⟨?_, ?_, ?_⟩
  · rw [hae]; exact (hl a (hsub a ha)).1
  · rw [hae]; exact (hm a ha).2
  · rw [hbe]; exact (hl b (hsub b hb)).2

theorem offset_le_of_within (lo lo2 hi : ℚ) (h1 : lo ≤ lo2) (h2 : lo2 ≤ hi)
    (hr : INT_MIN ≤ ⌊lo⌋ ∧ ⌊hi⌋ ≤ INT_MAX) : toInt ⌊lo⌋ ≤ toInt ⌊lo2⌋ := by
  have f1 : ⌊lo⌋ ≤ ⌊lo2⌋ := Int.floor_mono h1
  have f2 : ⌊lo2⌋ ≤ ⌊hi⌋ := Int.floor_mono h2
  rw [toInt_of_inRange ⌊lo⌋ ⟨hr.1, le_trans (le_trans f1 f2) hr.2⟩,
    toInt_of_inRange ⌊lo2⌋ ⟨le_trans hr.1 f1, le_trans f2 hr.2⟩]
  exact f1

theorem calculateBounds_fracView :
    fracView.calculateBounds =
      { minx := 3/2, maxx := 13/4, miny := -9/4, maxy := 9/2, minz := -1/2, maxz := 43/4 } := by
  simp only [PointView.calculateBounds, fracView, samplePoint, List.foldl, BOX3D.grow,
    BOX3D.ofPoint]
  norm_num

/-! ## Lemmas: descriptions as documents -/

theorem buildPipelineStr_eq_render (p : String) :
    buildPipelineStr p = render readLayout [Stage.path p] := by
  apply String.ext
  simp [buildPipelineStr, render, readLayout, renderStage, quoted, joinWith, WIN32,
    PDAL_PIPELINE_OPEN_ENGINE, PDAL_PIPELINE_OPEN_CABOOSE, String.data_append]

theorem transformPipeline_eq_render (fmt : ℚ → String) (inputPath outputPath : String)
    (dx dy dz : ℚ) :
    transformPipeline fmt inputPath outputPath dx dy dz =
      render transformLayout (transformStages fmt inputPath outputPath dx dy dz) := by
  apply String.ext
  simp [transformPipeline, render, transformLayout, renderStage, renderMember, quoted,
    joinWith, WIN32, transformStages, matrixText, String.data_append]

theorem matrixText_translation (a b d : String) :
    matrixText ["1", "0", "0", a, "0", "1", "0", b, "0", "0", "1", d, "0", "0", "0", "1"] =
      "1 0 0 " ++ a ++ " 0 1 0 " ++ b ++ " 0 0 1 " ++ d ++ " 0 0 0 1" := by
  apply String.ext
  simp [matrixText, joinWith, String.data_append]

/-! ## The claims -/

/-- C1: for a cloud `C` holding the collection `v` and a label `L`,
`CropToClass(L)` returns a cloud whose collection is exactly the points of `v`
with classification `L`, in index order and unchanged (the list filter of
`v`'s points), and whose `numPoints` is the number of such points. -/
theorem C1_CropToClass_keeps_exactly_the_label (C : PointCloud) (v : PointView) (L : Int)
    (h : C.pv = some v) :
    ∃ out : PointCloud, C.CropToClass L = some out ∧
      out.pv = some { points := v.points.filter (fun p => decide (p.classification = L)),
                      utmZone := v.utmZone } ∧
      out.numPoints = v.points.countP (fun p => decide (p.classification = L)) := by
  refine ⟨_, CropToClass_eq C v L h, ?_, ?_⟩
  · rw [ReadView_pv]; rfl
  · rw [ReadView_numPoints, List.countP_eq_length_filter]; rfl

/-- C1, at the spec's scenarios: of ten points, three with label 2, the crop
to label 2 keeps those three in order (`numPoints` 3); the crop to label 7,
which no point carries, has `numPoints` 0. -/
theorem C1_CropToClass_keeps_exactly_the_label_witness :
    (∃ out : PointCloud, (PointCloud.new.ReadView tenPoints).2.CropToClass 2 = some out ∧
      out.pv = some { points := [samplePoint 1 5 2 2, samplePoint 4 2 1 2, samplePoint 8 4 9 2],
                      utmZone := 18 } ∧
      out.numPoints = 3) ∧
    (∃ out : PointCloud, (PointCloud.new.ReadView tenPoints).2.CropToClass 7 = some out ∧
      out.pv = some { points := [], utmZone := 18 } ∧ out.numPoints = 0) := by
  constructor
  · obtain ⟨out, h1, h2, h3⟩ := C1_CropToClass_keeps_exactly_the_label
      (PointCloud.new.ReadView tenPoints).2 tenPoints 2 (ReadView_pv _ _)
    refine ⟨out, h1, ?_, ?_⟩
    · rw [h2]; simp [tenPoints, samplePoint, List.filter]
    · rw [h3]; simp [tenPoints, samplePoint, List.countP, List.countP.go]
  · obtain ⟨out, h1, h2, h3⟩ := C1_CropToClass_keeps_exactly_the_label
      (PointCloud.new.ReadView tenPoints).2 tenPoints 7 (ReadView_pv _ _)
    refine ⟨out, h1, ?_, ?_⟩
    · rw [h2]; simp [tenPoints, samplePoint, List.filter]
    · rw [h3]; simp [tenPoints, samplePoint, List.countP, List.countP.go]

/-- C2 (as amended): after every successful collection-based read the stored
bounds are the bounding box of the collection's points, and on every axis on
which the floor of the minimum bound is representable as an `int` the offset
equals that floor.  A successful path-based read is the collection-based read
of the first view the engine returned, so the same holds after it. -/
theorem C2_offset_is_floor_of_min_within_int (s : PointCloud) (v : PointView)
    (h : (s.ReadView v).1 = true) :
    (∀ (engine : Engine) (t : PointCloud) (fileName : String),
      (PointCloud.Read engine t fileName).1 = true →
      ∃ (u : PointCloud) (w : PointView), PointCloud.Read engine t fileName = u.ReadView w) ∧
    (s.ReadView v).2.bounds =
      { minX := v.calculateBounds.minx, maxX := v.calculateBounds.maxx,
        minY := v.calculateBounds.miny, maxY := v.calculateBounds.maxy,
        minZ := v.calculateBounds.minz, maxZ := v.calculateBounds.maxz } ∧
    IsBoundingBox v.points v.calculateBounds ∧
    (INT_MIN ≤ ⌊(s.ReadView v).2.bounds.minX⌋ ∧ ⌊(s.ReadView v).2.bounds.minX⌋ ≤ INT_MAX →
      (s.ReadView v).2.xOff = ⌊(s.ReadView v).2.bounds.minX⌋) ∧
    (INT_MIN ≤ ⌊(s.ReadView v).2.bounds.minY⌋ ∧ ⌊(s.ReadView v).2.bounds.minY⌋ ≤ INT_MAX →
      (s.ReadView v).2.yOff = ⌊(s.ReadView v).2.bounds.minY⌋) ∧
    (INT_MIN ≤ ⌊(s.ReadView v).2.bounds.minZ⌋ ∧ ⌊(s.ReadView v).2.bounds.minZ⌋ ≤ INT_MAX →
      (s.ReadView v).2.zOff = ⌊(s.ReadView v).2.bounds.minZ⌋) := by
  have hpos : 0 < v.size := (ReadView_success s v).mp h
  rw [ReadView_of_pos s v hpos]
  refine ⟨fun engine t fileName ht => ?_, rfl, calculateBounds_isBoundingBox v hpos,
    fun hr => toInt_of_inRange _ hr, fun hr => toInt_of_inRange _ hr,
    fun hr => toInt_of_inRange _ hr⟩
  obtain ⟨pvs, -, hpath⟩ := Read_is_ReadView_of_success engine t fileName ht
  exact ⟨_, _, hpath⟩

/-- C2 (as amended), at two points with least coordinates 3/2, -9/4 and -1/2:
the read succeeds and the offset is (1, -3, -1). -/
theorem C2_offset_is_floor_of_min_within_int_witness :
    (PointCloud.new.ReadView fracView).1 = true ∧
    (PointCloud.new.ReadView fracView).2.xOff = 1 ∧
    (PointCloud.new.ReadView fracView).2.yOff = -3 ∧
    (PointCloud.new.ReadView fracView).2.zOff = -1 := by
  have hs : (PointCloud.new.ReadView fracView).1 = true :=
    (ReadView_success _ _).mpr (by simp [PointView.size, fracView])
  obtain ⟨-, hb, -, hx, hy, hz⟩ :=
    C2_offset_is_floor_of_min_within_int PointCloud.new fracView hs
  rw [hb, calculateBounds_fracView] at hx hy hz
  have fx : ⌊(3/2 : ℚ)⌋ = 1 := by norm_num [Int.floor_eq_iff]
  have fy : ⌊(-9/4 : ℚ)⌋ = -3 := by norm_num [Int.floor_eq_iff]
  have fz : ⌊(-1/2 : ℚ)⌋ = -1 := by norm_num [Int.floor_eq_iff]
  simp only [fx, fy, fz] at hx hy hz
  exact ⟨hs, hx (by simp [INT_MIN, INT_MAX]), hy (by simp [INT_MIN, INT_MAX]),
    hz (by simp [INT_MIN, INT_MAX])⟩

/-- C2 fails as stated: the read of the single point with x = 3000000000
succeeds and the floor of its minimum x bound is 3000000000, which no `int`
holds; the offset, an `int`, differs from it. -/
theorem C2_counterexample_beyond_int :
    (PointCloud.new.ReadView farView).1 = true ∧
    ⌊(PointCloud.new.ReadView farView).2.bounds.minX⌋ = 3000000000 ∧
    (PointCloud.new.ReadView farView).2.xOff ≤ INT_MAX ∧
    (PointCloud.new.ReadView farView).2.xOff ≠
      ⌊(PointCloud.new.ReadView farView).2.bounds.minX⌋ := by
  have hpos : 0 < farView.size := by simp [PointView.size, farView]
  rw [ReadView_of_pos _ _ hpos]
  have hb : farView.calculateBounds.minx = 3000000000 := by
    simp [PointView.calculateBounds, farView, samplePoint, BOX3D.ofPoint]
  have hf : ⌊(3000000000 : ℚ)⌋ = 3000000000 := by simp
  have hr := (toInt_inRange 3000000000).2
  simp only [hb, hf]
  refine ⟨by trivial, by trivial, hr, ?_⟩
  simp only [INT_MAX] at hr
  omega

/-- C3: from every prior state, the collection-based read of `v` returns
success exactly when `v` holds a point, and afterwards `numPoints` is the
size of `v`; so `numPoints` is positive exactly after a success and zero
exactly after a failure. -/
theorem C3_ReadView_succeeds_iff_nonempty (s : PointCloud) (v : PointView) :
    ((s.ReadView v).1 = true ↔ 0 < v.size) ∧
    (s.ReadView v).2.numPoints = v.size ∧
    ((s.ReadView v).1 = true ↔ 0 < (s.ReadView v).2.numPoints) ∧
    ((s.ReadView v).1 = false ↔ (s.ReadView v).2.numPoints = 0) := by
  have hs := ReadView_success s v
  have hn := ReadView_numPoints s v
  refine ⟨hs, hn, by rw [hn]; exact hs, ?_⟩
  rw [hn, ← Bool.not_eq_true, hs]
  omega

/-- C4 (as amended): when the engine raises an error on the description of
`fileName`, the path-based read returns failure from every state; afterwards
no point collection is held, the manager is a fresh one, and bounds, offset,
zone and `numPoints` are those of the state before the call. -/
theorem C4_failed_Read_keeps_metadata_drops_collection (engine : Engine) (s : PointCloud)
    (fileName msg : String) (h : engine (buildPipelineStr fileName) = Except.error msg) :
    (PointCloud.Read engine s fileName).1 = false ∧
    (PointCloud.Read engine s fileName).2.pv = none ∧
    (PointCloud.Read engine s fileName).2.executor = some { views := [] } ∧
    (PointCloud.Read engine s fileName).2.metadata = s.metadata := by
  rw [Read_of_error engine s fileName msg h]
  exact ⟨rfl, rfl, rfl, rfl⟩

/-- C4 (as amended), at a cloud populated by a successful read of ten points
and an engine that then raises an error: the second read fails, the
collection is gone and `numPoints` is still 10. -/
theorem C4_failed_Read_keeps_metadata_drops_collection_witness :
    (PointCloud.Read tenPointsEngine PointCloud.new "a.las").1 = true ∧
    (PointCloud.Read failingEngine
      (PointCloud.Read tenPointsEngine PointCloud.new "a.las").2 "b.las").1 = false ∧
    (PointCloud.Read failingEngine
      (PointCloud.Read tenPointsEngine PointCloud.new "a.las").2 "b.las").2.pv = none ∧
    (PointCloud.Read failingEngine
      (PointCloud.Read tenPointsEngine PointCloud.new "a.las").2 "b.las").2.numPoints = 10 := by
  obtain ⟨h1, h2, -, h4⟩ := C4_failed_Read_keeps_metadata_drops_collection failingEngine
    (PointCloud.Read tenPointsEngine PointCloud.new "a.las").2 "b.las" "unable to open" rfl
  have hok := Read_of_ok tenPointsEngine PointCloud.new "a.las"
    { first := tenPoints, rest := [] } rfl
  refine ⟨?_, h1, h2, ?_⟩
  · rw [hok, ReadView_success]; simp [PointView.size, tenPoints]
  · have h5 := congrArg (fun m => m.2.2.2) h4
    simp only [PointCloud.metadata] at h5
    rw [h5, hok, ReadView_numPoints]
    simp [PointView.size, tenPoints]

/-- C4 fails as stated: a cloud populated by a successful read of ten points,
then read from a path on which the engine raises an error, is left neither as
it was (its collection is gone) nor as a default-constructed cloud
(`numPoints` is still 10). -/
theorem C4_counterexample_partial_reset :
    (PointCloud.Read failingEngine
      (PointCloud.Read tenPointsEngine PointCloud.new "a.las").2 "b.las").1 = false ∧
    ¬ ((PointCloud.Read failingEngine
          (PointCloud.Read tenPointsEngine PointCloud.new "a.las").2 "b.las").2
        = (PointCloud.Read tenPointsEngine PointCloud.new "a.las").2 ∨
       ((PointCloud.Read failingEngine
          (PointCloud.Read tenPointsEngine PointCloud.new "a.las").2 "b.las").2.metadata
        = PointCloud.new.metadata ∧
        (PointCloud.Read failingEngine
          (PointCloud.Read tenPointsEngine PointCloud.new "a.las").2 "b.las").2.pv = none)) := by
  have hok := Read_of_ok tenPointsEngine PointCloud.new "a.las"
    { first := tenPoints, rest := [] } rfl
  have herr := Read_of_error failingEngine
    (PointCloud.Read tenPointsEngine PointCloud.new "a.las").2 "b.las" "unable to open" rfl
  have hpv : (PointCloud.Read tenPointsEngine PointCloud.new "a.las").2.pv = some tenPoints := by
    rw [hok, ReadView_pv]
  have hnum : (PointCloud.Read tenPointsEngine PointCloud.new "a.las").2.numPoints = 10 := by
    rw [hok, ReadView_numPoints]; simp [PointView.size, tenPoints]
  rw [herr]
  refine ⟨rfl, ?_⟩
  rintro (h | ⟨h, -⟩)
  · have h2 := congrArg PointCloud.pv h
    rw [hpv] at h2
    simp at h2
  · have h2 := congrArg (fun m => m.2.2.2) h
    have h3 : (PointCloud.Read tenPointsEngine PointCloud.new "a.las").2.numPoints = 0 := h2
    rw [hnum] at h3
    simp at h3

/-- C5 (as amended): a collection-based read always leaves the handle on the
collection it was given, whether it succeeds or not; every cloud returned by
`CropToClass` holds the handle of the filtered collection, also when that is
empty; after a path-based read the handle is non-null exactly when the engine
raised no error.  So a successful read or crop leaves a non-null handle, but
a read that fails on an empty collection does too. -/
theorem C5_handle_after_read_and_crop (engine : Engine) (s C : PointCloud)
    (v w : PointView) (fileName : String) (L : Int) (h : C.pv = some w) :
    (s.ReadView v).2.pv = some v ∧
    ((s.ReadView v).1 = true → (s.ReadView v).2.pv ≠ none) ∧
    ((PointCloud.Read engine s fileName).2.pv ≠ none ↔
      ∃ pvs, engine (buildPipelineStr fileName) = Except.ok pvs) ∧
    ((PointCloud.Read engine s fileName).1 = true →
      (PointCloud.Read engine s fileName).2.pv ≠ none) ∧
    (∃ out : PointCloud, C.CropToClass L = some out ∧ out.pv ≠ none) := by
  have hpath : (PointCloud.Read engine s fileName).2.pv ≠ none ↔
      ∃ pvs, engine (buildPipelineStr fileName) = Except.ok pvs := by
    cases hres : engine (buildPipelineStr fileName) with
    | error msg => rw [Read_of_error engine s fileName msg hres]; simp
    | ok pvs => rw [Read_of_ok engine s fileName pvs hres, ReadView_pv]; simp
  refine ⟨ReadView_pv s v, fun _ => by rw [ReadView_pv]; simp, hpath, ?_, ?_⟩
  · intro hs
    cases hres : engine (buildPipelineStr fileName) with
    | error msg => rw [Read_of_error engine s fileName msg hres] at hs; simp at hs
    | ok pvs => rw [Read_of_ok engine s fileName pvs hres, ReadView_pv]; simp
  · exact ⟨_, CropToClass_eq C w L h, by rw [ReadView_pv]; simp⟩

/-- C5 (as amended), at the ten sample points: the read of them succeeds and
leaves the handle on them, and the crop of the resulting cloud to label 7 (no
such point) returns a cloud that holds a handle. -/
theorem C5_handle_after_read_and_crop_witness :
    (PointCloud.new.ReadView tenPoints).1 = true ∧
    (PointCloud.new.ReadView tenPoints).2.pv = some tenPoints ∧
    (PointCloud.new.ReadView tenPoints).2.pv ≠ none ∧
    (∃ out : PointCloud,
      (PointCloud.new.ReadView tenPoints).2.CropToClass 7 = some out ∧ out.pv ≠ none) := by
  obtain ⟨h1, h2, -, -, h5⟩ := C5_handle_after_read_and_crop failingEngine PointCloud.new
    (PointCloud.new.ReadView tenPoints).2 tenPoints tenPoints "a.las" 7 (ReadView_pv _ _)
  have hs : (PointCloud.new.ReadView tenPoints).1 = true :=
    (ReadView_success _ _).mpr (by simp [PointView.size, tenPoints])
  exact ⟨hs, h1, h2 hs, h5⟩

/-- C5 fails as stated: the read of an empty collection fails, yet the cloud
holds the handle of that collection; and the crop of the ten sample points to
label 7 returns a cloud with no point that holds a handle too. -/
theorem C5_counterexample_empty_collection_retained :
    (PointCloud.new.ReadView emptyView).1 = false ∧
    (PointCloud.new.ReadView emptyView).2.pv = some emptyView ∧
    (PointCloud.new.ReadView tenPoints).2.CropToClass 7 =
      some { PointCloud.new with pv := some { points := [], utmZone := 18 } } := by
  refine ⟨?_, ReadView_pv _ _, ?_⟩
  · rw [ReadView_of_empty _ _ (by simp [PointView.size, emptyView])]
  · rw [CropToClass_eq _ tenPoints 7 (ReadView_pv _ _)]
    have hf : tenPoints.points.filter (hasClass 7) = [] := by
      simp [tenPoints, samplePoint, hasClass, List.filter]
    rw [hf, ReadView_of_empty _ _ (by simp [PointView.size])]
    simp [tenPoints, PointCloud.new]

/-- C6: the read description built for the path `p` is exactly the text
`{ "pipeline": [ "` followed by `p` followed by `"] } `, which is the one-line
writing of the document whose `pipeline` key holds the single stage `p`, a
bare string; `buildPipelineStr` is a function of `p` alone. -/
theorem C6_read_description_sole_stage (p : String) :
    buildPipelineStr p = "\x7b \"pipeline\": [ \"" ++ p ++ "\"] \x7d " ∧
    buildPipelineStr p = render readLayout [Stage.path p] ∧
    readLayout.isBlank = true := by
  refine ⟨?_, buildPipelineStr_eq_render p, by decide⟩
  simp [buildPipelineStr, WIN32, PDAL_PIPELINE_OPEN_ENGINE, PDAL_PIPELINE_OPEN_CABOOSE]

/-- C7: the text `TransformPointCloud` hands to the engine is the document
whose `pipeline` key holds exactly three stages, in this order: the input
path; the filter of type `filters.transformation` whose matrix is the text
`1 0 0 dx 0 1 0 dy 0 0 1 dz 0 0 0 1` (16 entries separated by single spaces,
the translations as the stream prints them); a stage naming the output path.
When the stream prints the zero translation as `0`, the matrix is the
identity `1 0 0 0 0 1 0 0 0 0 1 0 0 0 0 1`. -/
theorem C7_transform_description_three_stages (engine : Engine) (fmt : ℚ → String)
    (inputPath outputPath : String) (dx dy dz : ℚ) :
    (PointCloud.TransformPointCloud engine fmt inputPath outputPath dx dy dz = true ↔
      ∃ pvs, engine (transformPipeline fmt inputPath outputPath dx dy dz) = Except.ok pvs) ∧
    transformPipeline fmt inputPath outputPath dx dy dz =
      render transformLayout
        [ Stage.path inputPath,
          Stage.object [("type", "filters.transformation"),
            ("matrix", "1 0 0 " ++ fmt dx ++ " 0 1 0 " ++ fmt dy ++ " 0 0 1 " ++ fmt dz
              ++ " 0 0 0 1")],
          Stage.object [("filename", outputPath)] ] ∧
    "1 0 0 " ++ fmt dx ++ " 0 1 0 " ++ fmt dy ++ " 0 0 1 " ++ fmt dz ++ " 0 0 0 1" =
      matrixText ["1", "0", "0", fmt dx, "0", "1", "0", fmt dy,
                  "0", "0", "1", fmt dz, "0", "0", "0", "1"] ∧
    transformLayout.isBlank = true ∧
    (fmt 0 = "0" →
      transformPipeline fmt inputPath outputPath 0 0 0 =
        render transformLayout
          [ Stage.path inputPath,
            Stage.object [("type", "filters.transformation"),
              ("matrix", "1 0 0 0 0 1 0 0 0 0 1 0 0 0 0 1")],
            Stage.object [("filename", outputPath)] ]) := by
  refine ⟨?_, ?_, (matrixText_translation _ _ _).symm, by decide, ?_⟩
  · unfold PointCloud.TransformPointCloud
    cases hres : engine (transformPipeline fmt inputPath outputPath dx dy dz) <;> simp [hres]
  · rw [transformPipeline_eq_render, transformStages, matrixText_translation]
  · intro h0
    rw [transformPipeline_eq_render, transformStages, matrixText_translation, h0]
    rfl

/-- C7, at `in.las`, `out.las` and the default zero translation, with a
stream that prints integral values as integers: the whole text. -/
theorem C7_transform_description_three_stages_witness :
    transformPipeline fmtIntegral "in.las" "out.las" 0 0 0 =
      "\x7b\n\t\"pipeline\":[\n\t\t\"in.las\",\n\t\t\x7b\n\t\t\t\"type\":\"filters.transformation\",\n\t\t\t\"matrix\":\"1 0 0 0 0 1 0 0 0 0 1 0 0 0 0 1\"\n\t\t\x7d,\n\t\t\x7b\n\t\t\t\"filename\":\"out.las\"\n\t\t\x7d\n\t]\n\x7d" := by
  obtain ⟨-, -, -, -, h⟩ := C7_transform_description_three_stages failingEngine fmtIntegral
    "in.las" "out.las" 0 0 0
  rw [h rfl]
  decide

/-- C8 (as amended): the read description has one stage, a bare path string;
the transform description has three: a bare path string (the input), an object
whose `type` is `filters.transformation`, and an object carrying only the key
`filename` (the output), which is neither a bare path string nor an object
with a `type`. -/
theorem C8_stage_shapes (fmt : ℚ → String) (p inputPath outputPath : String) (dx dy dz : ℚ) :
    buildPipelineStr p = render readLayout [Stage.path p] ∧
    (Stage.path p).isBarePath = true ∧
    (∃ filter : Stage,
      transformPipeline fmt inputPath outputPath dx dy dz =
        render transformLayout
          [Stage.path inputPath, filter, Stage.object [("filename", outputPath)]] ∧
      (Stage.path inputPath).isBarePath = true ∧
      filter.isBarePath = false ∧ filter.hasType = true ∧
      filter.keys = ["type", "matrix"] ∧
      (Stage.object [("filename", outputPath)]).isBarePath = false ∧
      (Stage.object [("filename", outputPath)]).hasType = false ∧
      (Stage.object [("filename", outputPath)]).keys = ["filename"]) := by
  refine ⟨buildPipelineStr_eq_render p, rfl, _, transformPipeline_eq_render _ _ _ _ _ _,
    rfl, rfl, ?_, rfl, rfl, ?_, rfl⟩
  · simp [transformStages, Stage.hasType, Stage.keys]
  · simp [Stage.hasType, Stage.keys]

/-- C8 fails as stated: in the transform description for `in.las` and
`out.las` the output stage is the object with the single member `filename`,
which is not a bare path string and carries no `type`. -/
theorem C8_counterexample_output_stage_without_type :
    transformPipeline fmtIntegral "in.las" "out.las" 0 0 0 =
      "\x7b\n\t\"pipeline\":[\n\t\t\"in.las\",\n\t\t\x7b\n\t\t\t\"type\":\"filters.transformation\",\n\t\t\t\"matrix\":\"1 0 0 0 0 1 0 0 0 0 1 0 0 0 0 1\"\n\t\t\x7d,\n\t\t"
        ++ renderStage transformLayout (Stage.object [("filename", "out.las")])
        ++ "\n\t]\n\x7d" ∧
    renderStage transformLayout (Stage.object [("filename", "out.las")]) =
      "\x7b\n\t\t\t\"filename\":\"out.las\"\n\t\t\x7d" ∧
    ¬ ((Stage.object [("filename", "out.las")]).isBarePath = true ∨
       (Stage.object [("filename", "out.las")]).hasType = true) := by
  refine ⟨by decide, by decide, by decide⟩

/-- C9: reading the collection `v` a second time leaves bounds, offset, zone
and `numPoints` (and the returned flag) as the first read left them; for a
non-empty `v` they are the same from every prior state; the handle held
afterwards is `v`, whatever was held before; and the path-based read first
drops the held collection and manager, so that it acts as on the cleaned-up
state, and is idempotent on the metadata as well. -/
theorem C9_Read_idempotent_on_metadata (engine : Engine) (s t : PointCloud) (v : PointView)
    (fileName : String) :
    ((s.ReadView v).2.ReadView v).2.metadata = (s.ReadView v).2.metadata ∧
    ((s.ReadView v).2.ReadView v).1 = (s.ReadView v).1 ∧
    (0 < v.size → (s.ReadView v).2.metadata = (t.ReadView v).2.metadata) ∧
    (s.ReadView v).2.pv = some v ∧
    s.CleanupPdalPointers.pv = none ∧ s.CleanupPdalPointers.executor = none ∧
    PointCloud.Read engine s fileName = PointCloud.Read engine s.CleanupPdalPointers fileName ∧
    (PointCloud.Read engine (PointCloud.Read engine s fileName).2 fileName).2.metadata =
      (PointCloud.Read engine s fileName).2.metadata ∧
    (PointCloud.Read engine (PointCloud.Read engine s fileName).2 fileName).1 =
      (PointCloud.Read engine s fileName).1 := by
  have hflag : ∀ a b : PointCloud, (a.ReadView v).1 = (b.ReadView v).1 := by
    intro a b
    rcases Nat.eq_zero_or_pos v.size with h0 | hpos
    · rw [ReadView_of_empty a v h0, ReadView_of_empty b v h0]
    · rw [ReadView_of_pos a v hpos, ReadView_of_pos b v hpos]
  refine ⟨ReadView_metadata_idem s v, hflag _ _, fun hpos => ReadView_metadata_of_pos s t v hpos,
    ReadView_pv s v, ?_, ?_, ?_, ?_, ?_⟩
  · rw [CleanupPdalPointers_eq]
  · rw [CleanupPdalPointers_eq]
  · simp [PointCloud.Read, CleanupPdalPointers_eq]
  · cases hres : engine (buildPipelineStr fileName) with
    | error msg =>
      rw [Read_of_error engine _ fileName msg hres, Read_of_error engine s fileName msg hres]
    | ok pvs =>
      rw [Read_of_ok engine _ fileName pvs hres, Read_of_ok engine s fileName pvs hres]
      refine Eq.trans (ReadView_metadata_congr _ (PointCloud.ReadView
        { s with pv := none, executor := some { views := pvs.first :: pvs.rest } }
        pvs.first).2 _ rfl) (ReadView_metadata_idem _ _)
  · cases hres : engine (buildPipelineStr fileName) with
    | error msg =>
      rw [Read_of_error engine _ fileName msg hres, Read_of_error engine s fileName msg hres]
    | ok pvs =>
      rw [Read_of_ok engine _ fileName pvs hres, Read_of_ok engine s fileName pvs hres]
      rcases Nat.eq_zero_or_pos pvs.first.size with h0 | hpos
      · rw [ReadView_of_empty _ _ h0, ReadView_of_empty _ _ h0]
      · rw [ReadView_of_pos _ _ hpos, ReadView_of_pos _ _ hpos]

/-- C9, at the ten sample points read by both overloads: the metadata after
the second read is that after the first, and it does not depend on whether the
prior state was fresh or held the fractional sample. -/
theorem C9_Read_idempotent_on_metadata_witness :
    ((PointCloud.new.ReadView tenPoints).2.ReadView tenPoints).2.metadata =
      (PointCloud.new.ReadView tenPoints).2.metadata ∧
    (PointCloud.new.ReadView tenPoints).2.metadata =
      ((PointCloud.new.ReadView fracView).2.ReadView tenPoints).2.metadata ∧
    (PointCloud.Read tenPointsEngine
      (PointCloud.Read tenPointsEngine PointCloud.new "a.las").2 "a.las").2.metadata =
      (PointCloud.Read tenPointsEngine PointCloud.new "a.las").2.metadata := by
  obtain ⟨h1, -, h3, -, -, -, -, h8, -⟩ := C9_Read_idempotent_on_metadata tenPointsEngine
    PointCloud.new (PointCloud.new.ReadView fracView).2 tenPoints "a.las"
  exact ⟨h1, h3 (by simp [PointView.size, tenPoints]), h8⟩

/-- C10 (as amended): let `C` be the cloud after a successful read of `v`.
The crop of `C` to `L` returns a cloud.  If some point of `v` has label `L`,
its bounding box lies within that of `C` on every axis
(`C.min ≤ crop.min ≤ crop.max ≤ C.max`), and on every axis on which the floors
of `C`'s two bounds are representable as `int` its offset is at least `C`'s.
If no point has label `L`, bounds, offset and zone of the returned cloud are
those of a default-constructed cloud, all zero. -/
theorem C10_crop_box_within_source_box (s C : PointCloud) (v : PointView) (L : Int)
    (hread : s.ReadView v = (true, C)) :
    ∃ crop : PointCloud, C.CropToClass L = some crop ∧
      ((∃ p ∈ v.points, p.classification = L) →
        (C.bounds.minX ≤ crop.bounds.minX ∧ crop.bounds.minX ≤ crop.bounds.maxX ∧
          crop.bounds.maxX ≤ C.bounds.maxX) ∧
        (C.bounds.minY ≤ crop.bounds.minY ∧ crop.bounds.minY ≤ crop.bounds.maxY ∧
          crop.bounds.maxY ≤ C.bounds.maxY) ∧
        (C.bounds.minZ ≤ crop.bounds.minZ ∧ crop.bounds.minZ ≤ crop.bounds.maxZ ∧
          crop.bounds.maxZ ≤ C.bounds.maxZ) ∧
        (INT_MIN ≤ ⌊C.bounds.minX⌋ ∧ ⌊C.bounds.maxX⌋ ≤ INT_MAX → C.xOff ≤ crop.xOff) ∧
        (INT_MIN ≤ ⌊C.bounds.minY⌋ ∧ ⌊C.bounds.maxY⌋ ≤ INT_MAX → C.yOff ≤ crop.yOff) ∧
        (INT_MIN ≤ ⌊C.bounds.minZ⌋ ∧ ⌊C.bounds.maxZ⌋ ≤ INT_MAX → C.zOff ≤ crop.zOff)) ∧
      ((¬ ∃ p ∈ v.points, p.classification = L) →
        crop.bounds = PointCloud.new.bounds ∧ crop.xOff = 0 ∧ crop.yOff = 0 ∧
          crop.zOff = 0 ∧ crop.zone = 0) := by
  have hflag : (s.ReadView v).1 = true := by rw [hread]
  have hpos : 0 < v.size := (ReadView_success s v).mp hflag
  have hC : C = (s.ReadView v).2 := by rw [hread]
  rw [ReadView_of_pos s v hpos] at hC
  have hpv : C.pv = some v := by rw [hC]
  refine ⟨_, CropToClass_eq C v L hpv, ?_, ?_⟩
  · rintro ⟨p, hp, hpL⟩
    have hmem : p ∈ v.points.filter (hasClass L) :=
      List.mem_filter.mpr ⟨hp, by simp [hasClass, hpL]⟩
    have hfpos : 0 < (PointView.mk (v.points.filter (hasClass L)) v.utmZone).size :=
      List.length_pos_of_mem hmem
    have hsub : ∀ q ∈ v.points.filter (hasClass L), q ∈ v.points :=
      fun q hq => (List.mem_filter.mp hq).1
    obtain ⟨hin, hx0, hx1, hy0, hy1, hz0, hz1⟩ := calculateBounds_isBoundingBox v hpos
    obtain ⟨gin, gx0, gx1, gy0, gy1, gz0, gz1⟩ := calculateBounds_isBoundingBox _ hfpos
    have hX := axis_within _ _ Point.x _ _ _ _ hsub
      (fun q hq => ⟨(hin q hq).1, (hin q hq).2.1⟩)
      (fun q hq => ⟨(gin q hq).1, (gin q hq).2.1⟩) gx0 gx1
    have hY := axis_within _ _ Point.y _ _ _ _ hsub
      (fun q hq => ⟨(hin q hq).2.2.1, (hin q hq).2.2.2.1⟩)
      (fun q hq => ⟨(gin q hq).2.2.1, (gin q hq).2.2.2.1⟩) gy0 gy1
    have hZ := axis_within _ _ Point.z _ _ _ _ hsub
      (fun q hq => ⟨(hin q hq).2.2.2.2.1, (hin q hq).2.2.2.2.2⟩)
      (fun q hq => ⟨(gin q hq).2.2.2.2.1, (gin q hq).2.2.2.2.2⟩) gz0 gz1
    rw [ReadView_of_pos _ _ hfpos, hC]
    exact ⟨hX, hY, hZ,
      fun hr => offset_le_of_within _ _ _ hX.1 (le_trans hX.2.1 hX.2.2) hr,
      fun hr => offset_le_of_within _ _ _ hY.1 (le_trans hY.2.1 hY.2.2) hr,
      fun hr => offset_le_of_within _ _ _ hZ.1 (le_trans hZ.2.1 hZ.2.2) hr⟩
  · intro hnone
    have hf : v.points.filter (hasClass L) = [] := by
      rw [List.filter_eq_nil_iff]
      intro q hq hk
      exact hnone ⟨q, hq, by simpa [hasClass] using hk⟩
    rw [hf, ReadView_of_empty _ _ (by simp [PointView.size])]
    exact ⟨rfl, rfl, rfl, rfl, rfl⟩

/-- C10 (as amended), at the ten sample points: cropped to label 2, the
crop's x range lies in the source's and its x offset is at least the
source's; cropped to label 7, which no point carries, bounds, offset and zone
are zero. -/
theorem C10_crop_box_within_source_box_witness :
    (∃ crop : PointCloud, (PointCloud.new.ReadView tenPoints).2.CropToClass 2 = some crop ∧
      (PointCloud.new.ReadView tenPoints).2.bounds.minX ≤ crop.bounds.minX ∧
      crop.bounds.minX ≤ crop.bounds.maxX ∧
      crop.bounds.maxX ≤ (PointCloud.new.ReadView tenPoints).2.bounds.maxX ∧
      (PointCloud.new.ReadView tenPoints).2.xOff ≤ crop.xOff) ∧
    (∃ crop : PointCloud, (PointCloud.new.ReadView tenPoints).2.CropToClass 7 = some crop ∧
      crop.bounds = PointCloud.new.bounds ∧ crop.xOff = 0 ∧ crop.yOff = 0 ∧
      crop.zOff = 0 ∧ crop.zone = 0) := by
  have hpos : 0 < tenPoints.size := by simp [PointView.size, tenPoints]
  have hread : PointCloud.new.ReadView tenPoints =
      (true, (PointCloud.new.ReadView tenPoints).2) := by
    rw [ReadView_of_pos _ _ hpos]
  constructor
  · obtain ⟨crop, h1, h2, -⟩ := C10_crop_box_within_source_box PointCloud.new
      (PointCloud.new.ReadView tenPoints).2 tenPoints 2 hread
    obtain ⟨hX, -, -, hxo, -, -⟩ := h2
      ⟨samplePoint 1 5 2 2, by simp [tenPoints], by simp [samplePoint]⟩
    have hb : tenPoints.calculateBounds =
        { minx := 0, maxx := 9, miny := 0, maxy := 9, minz := 0, maxz := 9 } := by
      simp only [PointView.calculateBounds, tenPoints, samplePoint, List.foldl, BOX3D.grow,
        BOX3D.ofPoint]
      norm_num
    refine ⟨crop, h1, hX.1, hX.2.1, hX.2.2, hxo ?_⟩
    rw [ReadView_of_pos _ _ hpos, hb]
    simp [INT_MIN, INT_MAX]
  · obtain ⟨crop, h1, -, h3⟩ := C10_crop_box_within_source_box PointCloud.new
      (PointCloud.new.ReadView tenPoints).2 tenPoints 7 hread
    refine ⟨crop, h1, h3 ?_⟩
    simp [tenPoints, samplePoint]

/-- C10 fails as stated: the cloud read from a point at x = 0 (label 1) and a
point at x = 3000000000 (label 2) has x offset 0; its crop to label 2 has the
x offset the conversion of 3000000000 to `int` yields, which is negative
(`INT_MIN` here; a wrap-around conversion would give -1294967296), so the
crop's offset is below the source's. -/
theorem C10_counterexample_offset_below_source :
    (PointCloud.new.ReadView nearFarView).1 = true ∧
    (∃ p ∈ nearFarView.points, p.classification = 2) ∧
    (PointCloud.new.ReadView nearFarView).2.xOff = 0 ∧
    ∃ crop : PointCloud, (PointCloud.new.ReadView nearFarView).2.CropToClass 2 = some crop ∧
      crop.xOff = INT_MIN ∧ crop.xOff < (PointCloud.new.ReadView nearFarView).2.xOff := by
  have hpos : 0 < nearFarView.size := by simp [PointView.size, nearFarView]
  have hb : nearFarView.calculateBounds.minx = 0 := by
    simp [PointView.calculateBounds, nearFarView, samplePoint, BOX3D.grow, BOX3D.ofPoint]
  have hx : (PointCloud.new.ReadView nearFarView).2.xOff = 0 := by
    rw [ReadView_of_pos _ _ hpos]
    simp [hb, toInt, INT_MIN, INT_MAX]
  have hf : nearFarView.points.filter (hasClass 2) = [samplePoint 3000000000 0 0 2] := by
    simp [nearFarView, samplePoint, hasClass, List.filter]
  have hcx : (PointCloud.new.ReadView
      { points := nearFarView.points.filter (hasClass 2),
        utmZone := nearFarView.utmZone }).2.xOff = INT_MIN := by
    rw [hf, ReadView_of_pos _ _ (by simp [PointView.size])]
    simp [PointView.calculateBounds, samplePoint, BOX3D.ofPoint, toInt, INT_MIN, INT_MAX]
  refine ⟨(ReadView_success _ _).mpr hpos,
    ⟨samplePoint 3000000000 0 0 2, by simp [nearFarView], by simp [samplePoint]⟩, hx,
    _, CropToClass_eq _ nearFarView 2 (ReadView_pv _ _), hcx, ?_⟩
  rw [hcx, hx]
  simp [INT_MIN]

end pubgeo
